import Mathlib

/-!
Verification of the `embedded-trace` crate (files `src/lib.rs` and
`src/instruments/gpio.rs`).

The crate wraps a `Future` in one of three tracer combinators which call
`on_enter` / `on_exit` on `Instrument` values around polls of the wrapped
future.  We embed a future shallowly as a state-transformer
`σF → γ → Poll α × σF` (state, context ⟶ poll result, new state), an
instrument as a pair of state-transformers on its own state type, and each
tracer's `poll` as the corresponding function on the tracer's record of
fields.  In addition to updating the states exactly as the Rust code does,
each embedded `poll` returns the ordered list of observable events of that
invocation (which instrument method was called, and the single poll of the
wrapped future), so that ordering and counting properties of the signaling
protocol can be stated directly.
-/

namespace EmbeddedTrace

/-- Result of polling a future: `core::task::Poll`. -/
inductive Poll (α : Type) where
  | ready (c : α)
  | pending
deriving DecidableEq, Repr

/-- Whether a poll result is `Ready`. -/
def Poll.isReady {α : Type} : Poll α → Bool
  | Poll.ready _ => true
  | Poll.pending => false

/-- The `Instrument` trait: `on_enter` and `on_exit`, each mutating the
instrument's own state (`&mut self`, no return value). -/
structure Instrument (ι : Type) where
  on_enter : ι → ι
  on_exit : ι → ι

/-- Observable events of one tracer poll invocation: a call to the
task-level instrument's `on_enter`/`on_exit`, a call to the step-level
instrument's `on_enter`/`on_exit`, or the single poll of the wrapped
future.  For the single-instrument tracers `TraceTaskFuture` and
`TracePollFuture` the instrument plays the task-level and step-level role
respectively. -/
inductive Ev where
  | taskEnter
  | taskExit
  | stepEnter
  | stepExit
  | futPoll
deriving DecidableEq, Repr

/-- State of `TraceTaskFuture`: the wrapped future, the borrowed
instrument, and the `polled_once` flag. -/
structure TraceTaskFuture (σF ι : Type) where
  fut : σF
  instrument : ι
  polled_once : Bool
deriving DecidableEq, Repr

/-- State of `TracePollFuture`: the wrapped future and the borrowed
instrument. -/
structure TracePollFuture (σF ι : Type) where
  fut : σF
  instrument : ι
deriving DecidableEq, Repr

/-- State of `TraceTaskAndPollFuture`: the wrapped future, the two borrowed
instruments, and the `polled_once` flag. -/
structure TraceTaskAndPollFuture (σF ι1 ι2 : Type) where
  fut : σF
  task_instrument : ι1
  poll_instrument : ι2
  polled_once : Bool
deriving DecidableEq, Repr

/-- `TraceFuture::trace_task`: wrap a future, `polled_once` initialized to
`false`. -/
def trace_task {σF ι : Type} (fut : σF) (instrument : ι) : TraceTaskFuture σF ι :=
  { fut := fut, instrument := instrument, polled_once := false }

/-- `TraceFuture::trace_poll`: wrap a future. -/
def trace_poll {σF ι : Type} (fut : σF) (instrument : ι) : TracePollFuture σF ι :=
  { fut := fut, instrument := instrument }

/-- `TraceFuture::trace_task_and_poll`: wrap a future with a task-level and
a step-level instrument, `polled_once` initialized to `false`. -/
def trace_task_and_poll {σF ι1 ι2 : Type} (fut : σF) (task_instrument : ι1)
    (poll_instrument : ι2) : TraceTaskAndPollFuture σF ι1 ι2 :=
  { fut := fut, task_instrument := task_instrument,
    poll_instrument := poll_instrument, polled_once := false }

/-- `<TraceTaskFuture as Future>::poll`: if `polled_once` is false, call
`on_enter`; set `polled_once` to true; poll the wrapped future; on `Ready`
call `on_exit` and return the value, on `Pending` return `Pending`.
Returns the poll result, the updated tracer state, and the ordered event
list of the invocation. -/
def TraceTaskFuture.poll {σF ι γ α : Type} (I : Instrument ι)
    (fpoll : σF → γ → Poll α × σF) (self : TraceTaskFuture σF ι) (cx : γ) :
    Poll α × TraceTaskFuture σF ι × List Ev :=
  let (instrument, entryLog) :=
    if !self.polled_once then (I.on_enter self.instrument, [Ev.taskEnter])
    else (self.instrument, ([] : List Ev))
  let polled_once := true
  let (poll_result, fut) := fpoll self.fut cx
  match poll_result with
  | Poll.ready c =>
      (Poll.ready c, ⟨fut, I.on_exit instrument, polled_once⟩,
        entryLog ++ [Ev.futPoll, Ev.taskExit])
  | Poll.pending =>
      (Poll.pending, ⟨fut, instrument, polled_once⟩, entryLog ++ [Ev.futPoll])

/-- `<TracePollFuture as Future>::poll`: unconditionally call `on_enter`,
poll the wrapped future, call `on_exit`, and return the wrapped result
unchanged.  Returns the poll result, the updated tracer state, and the
ordered event list of the invocation. -/
def TracePollFuture.poll {σF ι γ α : Type} (I : Instrument ι)
    (fpoll : σF → γ → Poll α × σF) (self : TracePollFuture σF ι) (cx : γ) :
    Poll α × TracePollFuture σF ι × List Ev :=
  let instrument := I.on_enter self.instrument
  let (poll_result, fut) := fpoll self.fut cx
  let instrument' := I.on_exit instrument
  let log := [Ev.stepEnter, Ev.futPoll, Ev.stepExit]
  match poll_result with
  | Poll.ready c => (Poll.ready c, ⟨fut, instrument'⟩, log)
  | Poll.pending => (Poll.pending, ⟨fut, instrument'⟩, log)

/-- `<TraceTaskAndPollFuture as Future>::poll`: if `polled_once` is false,
call the task instrument's `on_enter`; set `polled_once` to true; call the
poll instrument's `on_enter`; poll the wrapped future; call the poll
instrument's `on_exit`; on `Ready` call the task instrument's `on_exit`
and return the value, on `Pending` return `Pending`.  Returns the poll
result, the updated tracer state, and the ordered event list of the
invocation. -/
def TraceTaskAndPollFuture.poll {σF ι1 ι2 γ α : Type} (I1 : Instrument ι1)
    (I2 : Instrument ι2) (fpoll : σF → γ → Poll α × σF)
    (self : TraceTaskAndPollFuture σF ι1 ι2) (cx : γ) :
    Poll α × TraceTaskAndPollFuture σF ι1 ι2 × List Ev :=
  let (task_instrument, entryLog) :=
    if !self.polled_once then (I1.on_enter self.task_instrument, [Ev.taskEnter])
    else (self.task_instrument, ([] : List Ev))
  let polled_once := true
  let poll_instrument := I2.on_enter self.poll_instrument
  let (poll_result, fut) := fpoll self.fut cx
  let poll_instrument' := I2.on_exit poll_instrument
  match poll_result with
  | Poll.ready c =>
      (Poll.ready c,
        ⟨fut, I1.on_exit task_instrument, poll_instrument', polled_once⟩,
        entryLog ++ [Ev.stepEnter, Ev.futPoll, Ev.stepExit, Ev.taskExit])
  | Poll.pending =>
      (Poll.pending, ⟨fut, task_instrument, poll_instrument', polled_once⟩,
        entryLog ++ [Ev.stepEnter, Ev.futPoll, Ev.stepExit])

/-- Repeatedly poll a `TraceTaskFuture`, once per context in the list.
Returns the final tracer state, the list of per-step results, and the list
of per-step event logs. -/
def TraceTaskFuture.run {σF ι γ α : Type} (I : Instrument ι)
    (fpoll : σF → γ → Poll α × σF) (s : TraceTaskFuture σF ι) :
    List γ → TraceTaskFuture σF ι × List (Poll α) × List (List Ev)
  | [] => (s, [], [])
  | cx :: rest =>
      let (r, s', log) := TraceTaskFuture.poll I fpoll s cx
      let (sf, rs, logs) := TraceTaskFuture.run I fpoll s' rest
      (sf, r :: rs, log :: logs)

/-- Repeatedly poll a `TracePollFuture`, once per context in the list. -/
def TracePollFuture.run {σF ι γ α : Type} (I : Instrument ι)
    (fpoll : σF → γ → Poll α × σF) (s : TracePollFuture σF ι) :
    List γ → TracePollFuture σF ι × List (Poll α) × List (List Ev)
  | [] => (s, [], [])
  | cx :: rest =>
      let (r, s', log) := TracePollFuture.poll I fpoll s cx
      let (sf, rs, logs) := TracePollFuture.run I fpoll s' rest
      (sf, r :: rs, log :: logs)

/-- Repeatedly poll a `TraceTaskAndPollFuture`, once per context in the
list. -/
def TraceTaskAndPollFuture.run {σF ι1 ι2 γ α : Type} (I1 : Instrument ι1)
    (I2 : Instrument ι2) (fpoll : σF → γ → Poll α × σF)
    (s : TraceTaskAndPollFuture σF ι1 ι2) :
    List γ → TraceTaskAndPollFuture σF ι1 ι2 × List (Poll α) × List (List Ev)
  | [] => (s, [], [])
  | cx :: rest =>
      let (r, s', log) := TraceTaskAndPollFuture.poll I1 I2 fpoll s cx
      let (sf, rs, logs) := TraceTaskAndPollFuture.run I1 I2 fpoll s' rest
      (sf, r :: rs, log :: logs)

/-- Repeatedly poll the bare (unwrapped) future, once per context in the
list: the reference behavior for transparency. -/
def futRun {σF γ α : Type} (fpoll : σF → γ → Poll α × σF) (s : σF) :
    List γ → σF × List (Poll α)
  | [] => (s, [])
  | cx :: rest =>
      let (r, s') := fpoll s cx
      let (sf, rs) := futRun fpoll s' rest
      (sf, r :: rs)

/-- None of the three tracers implements `Drop`: destroying a tracer runs
only the default drop glue, which releases the instrument borrows and
calls no instrument method.  The event trace of dropping a
`TraceTaskFuture` is therefore empty. -/
def TraceTaskFuture.dropEvents {σF ι : Type} (_self : TraceTaskFuture σF ι) :
    List Ev := []

/-- Event trace of dropping a `TracePollFuture` (no `Drop` impl in the
source): empty. -/
def TracePollFuture.dropEvents {σF ι : Type} (_self : TracePollFuture σF ι) :
    List Ev := []

/-- Event trace of dropping a `TraceTaskAndPollFuture` (no `Drop` impl in
the source): empty. -/
def TraceTaskAndPollFuture.dropEvents {σF ι1 ι2 : Type}
    (_self : TraceTaskAndPollFuture σF ι1 ι2) : List Ev := []

/-! ## GPIO instruments (`src/instruments/gpio.rs`)

An `OutputPin` (either `embedded-hal` 1.0 or 0.2: both expose fallible
`set_high`/`set_low` on `&mut self`) is embedded as a pair of
state-transformers on the pin state `π` that also report an optional error
of type `ε` (`Result<(), Error>`). -/

/-- The `OutputPin` trait (both `embedded-hal` revisions): `set_high` and
`set_low` mutate the pin and return `Result<(), Error>`, embedded as an
optional error together with the new pin state. -/
structure OutputPin (π ε : Type) where
  set_high : π → Option ε × π
  set_low : π → Option ε × π

/-- The owning `Gpio` adapter: holds the pin by value. -/
structure Gpio (π : Type) where
  pin : π
deriving DecidableEq, Repr

/-- `Gpio::new`. -/
def Gpio.new {π : Type} (pin : π) : Gpio π := { pin := pin }

/-- `Gpio::free`: return the underlying pin. -/
def Gpio.free {π : Type} (self : Gpio π) : π := self.pin

/-- The borrowing `GpioRef` adapter: holds `&mut P`; its observable state
is the state of the referenced pin. -/
structure GpioRef (π : Type) where
  pin : π
deriving DecidableEq, Repr

/-- `GpioRef::new`. -/
def GpioRef.new {π : Type} (pin : π) : GpioRef π := { pin := pin }

/-- The owning `LegacyGpio` adapter (`embedded-hal` 0.2): holds the pin by
value. -/
structure LegacyGpio (π : Type) where
  pin : π
deriving DecidableEq, Repr

/-- `LegacyGpio::new`. -/
def LegacyGpio.new {π : Type} (pin : π) : LegacyGpio π := { pin := pin }

/-- `LegacyGpio::free`: return the underlying pin. -/
def LegacyGpio.free {π : Type} (self : LegacyGpio π) : π := self.pin

/-- The borrowing `LegacyGpioRef` adapter (`embedded-hal` 0.2). -/
structure LegacyGpioRef (π : Type) where
  pin : π
deriving DecidableEq, Repr

/-- `LegacyGpioRef::new`. -/
def LegacyGpioRef.new {π : Type} (pin : π) : LegacyGpioRef π :=
  { pin := pin }

/-- `impl Instrument for Gpio`: `on_enter` runs `let _ = self.pin.set_high()`
(the `Result` is discarded), `on_exit` runs `let _ = self.pin.set_low()`. -/
def Gpio.instrument {π ε : Type} (P : OutputPin π ε) : Instrument (Gpio π) :=
  { on_enter := fun self => { pin := (P.set_high self.pin).2 },
    on_exit := fun self => { pin := (P.set_low self.pin).2 } }

/-- `impl Instrument for GpioRef`: same bodies as `Gpio`, through the
mutable reference. -/
def GpioRef.instrument {π ε : Type} (P : OutputPin π ε) :
    Instrument (GpioRef π) :=
  { on_enter := fun self => { pin := (P.set_high self.pin).2 },
    on_exit := fun self => { pin := (P.set_low self.pin).2 } }

/-- `impl Instrument for LegacyGpio`: same shape against the 0.2 pin
trait. -/
def LegacyGpio.instrument {π ε : Type} (P : OutputPin π ε) :
    Instrument (LegacyGpio π) :=
  { on_enter := fun self => { pin := (P.set_high self.pin).2 },
    on_exit := fun self => { pin := (P.set_low self.pin).2 } }

/-- `impl Instrument for LegacyGpioRef`. -/
def LegacyGpioRef.instrument {π ε : Type} (P : OutputPin π ε) :
    Instrument (LegacyGpioRef π) :=
  { on_enter := fun self => { pin := (P.set_high self.pin).2 },
    on_exit := fun self => { pin := (P.set_low self.pin).2 } }

/-! ## Per-poll characterizations -/

/-- Event log of one `TraceTaskFuture.poll`, as a function of the
`polled_once` flag and of whether the wrapped poll was `Ready`. -/
def taskStepLog (b r : Bool) : List Ev :=
  (if b then [] else [Ev.taskEnter]) ++ [Ev.futPoll]
    ++ (if r then [Ev.taskExit] else [])

/-- Event log of one `TracePollFuture.poll` (always the same). -/
def stepStepLog : List Ev := [Ev.stepEnter, Ev.futPoll, Ev.stepExit]

/-- Event log of one `TraceTaskAndPollFuture.poll`, as a function of the
`polled_once` flag and of whether the wrapped poll was `Ready`. -/
def combStepLog (b r : Bool) : List Ev :=
  (if b then [] else [Ev.taskEnter]) ++ [Ev.stepEnter, Ev.futPoll, Ev.stepExit]
    ++ (if r then [Ev.taskExit] else [])

lemma taskPoll_eq {σF ι γ α : Type} (I : Instrument ι)
    (fpoll : σF → γ → Poll α × σF) (s : TraceTaskFuture σF ι) (cx : γ) :
    TraceTaskFuture.poll I fpoll s cx =
      ((fpoll s.fut cx).1,
        ⟨(fpoll s.fut cx).2,
          (if (fpoll s.fut cx).1.isReady then
            I.on_exit (if s.polled_once then s.instrument else I.on_enter s.instrument)
          else (if s.polled_once then s.instrument else I.on_enter s.instrument)),
          true⟩,
        taskStepLog s.polled_once (fpoll s.fut cx).1.isReady) := by
  cases hb : s.polled_once <;> rcases hf : fpoll s.fut cx with ⟨r, f'⟩ <;>
    cases r <;> simp [TraceTaskFuture.poll, taskStepLog, Poll.isReady, hb, hf]

lemma stepPoll_eq {σF ι γ α : Type} (I : Instrument ι)
    (fpoll : σF → γ → Poll α × σF) (s : TracePollFuture σF ι) (cx : γ) :
    TracePollFuture.poll I fpoll s cx =
      ((fpoll s.fut cx).1,
        ⟨(fpoll s.fut cx).2, I.on_exit (I.on_enter s.instrument)⟩,
        stepStepLog) := by
  rcases hf : fpoll s.fut cx with ⟨r, f'⟩
  cases r <;> simp [TracePollFuture.poll, stepStepLog, hf]

lemma combPoll_eq {σF ι1 ι2 γ α : Type}
    (I1 : Instrument ι1) (I2 : Instrument ι2) (fpoll : σF → γ → Poll α × σF)
    (s : TraceTaskAndPollFuture σF ι1 ι2) (cx : γ) :
    TraceTaskAndPollFuture.poll I1 I2 fpoll s cx =
      ((fpoll s.fut cx).1,
        ⟨(fpoll s.fut cx).2,
          (if (fpoll s.fut cx).1.isReady then
            I1.on_exit
              (if s.polled_once then s.task_instrument
               else I1.on_enter s.task_instrument)
          else (if s.polled_once then s.task_instrument
                else I1.on_enter s.task_instrument)),
          I2.on_exit (I2.on_enter s.poll_instrument),
          true⟩,
        combStepLog s.polled_once (fpoll s.fut cx).1.isReady) := by
  cases hb : s.polled_once <;> rcases hf : fpoll s.fut cx with ⟨r, f'⟩ <;>
    cases r <;>
    simp [TraceTaskAndPollFuture.poll, combStepLog, Poll.isReady, hb, hf]

/-! ## Run characterizations -/

/-- Per-step event logs of a whole `TraceTaskFuture` run, as a function of
the initial `polled_once` flag and the per-step readiness of the wrapped
results. -/
def taskLogs : Bool → List Bool → List (List Ev)
  | _, [] => []
  | b, r :: rest => taskStepLog b r :: taskLogs true rest

/-- Per-step event logs of a whole `TraceTaskAndPollFuture` run, as a
function of the initial `polled_once` flag and the per-step readiness of
the wrapped results. -/
def combLogs : Bool → List Bool → List (List Ev)
  | _, [] => []
  | b, r :: rest => combStepLog b r :: combLogs true rest

lemma taskRun_spec {σF ι γ α : Type} (I : Instrument ι)
    (fpoll : σF → γ → Poll α × σF) :
    ∀ (cxs : List γ) (s : TraceTaskFuture σF ι),
      (TraceTaskFuture.run I fpoll s cxs).2.1 = (futRun fpoll s.fut cxs).2 ∧
      (TraceTaskFuture.run I fpoll s cxs).1.fut = (futRun fpoll s.fut cxs).1 ∧
      (TraceTaskFuture.run I fpoll s cxs).2.2
        = taskLogs s.polled_once ((futRun fpoll s.fut cxs).2.map Poll.isReady) ∧
      (TraceTaskFuture.run I fpoll s cxs).1.polled_once
        = (s.polled_once || !cxs.isEmpty)
  | [], s => by simp [TraceTaskFuture.run, futRun, taskLogs]
  | cx :: rest, s => by
      have ih := fun s' => taskRun_spec I fpoll rest s'
      cases hb : s.polled_once <;> rcases hf : fpoll s.fut cx with ⟨r, f'⟩ <;>
        cases r <;>
        simp [TraceTaskFuture.run, TraceTaskFuture.poll, futRun, taskLogs,
          taskStepLog, Poll.isReady, hb, hf, ih]

lemma stepRun_spec {σF ι γ α : Type} (I : Instrument ι)
    (fpoll : σF → γ → Poll α × σF) :
    ∀ (cxs : List γ) (s : TracePollFuture σF ι),
      (TracePollFuture.run I fpoll s cxs).2.1 = (futRun fpoll s.fut cxs).2 ∧
      (TracePollFuture.run I fpoll s cxs).1.fut = (futRun fpoll s.fut cxs).1 ∧
      (TracePollFuture.run I fpoll s cxs).2.2
        = List.replicate cxs.length stepStepLog
  | [], s => by simp [TracePollFuture.run, futRun]
  | cx :: rest, s => by
      have ih := fun s' => stepRun_spec I fpoll rest s'
      rcases hf : fpoll s.fut cx with ⟨r, f'⟩
      cases r <;>
        simp [TracePollFuture.run, TracePollFuture.poll, futRun, stepStepLog,
          List.replicate_succ, hf, ih]

lemma combRun_spec {σF ι1 ι2 γ α : Type}
    (I1 : Instrument ι1) (I2 : Instrument ι2)
    (fpoll : σF → γ → Poll α × σF) :
    ∀ (cxs : List γ) (s : TraceTaskAndPollFuture σF ι1 ι2),
      (TraceTaskAndPollFuture.run I1 I2 fpoll s cxs).2.1
        = (futRun fpoll s.fut cxs).2 ∧
      (TraceTaskAndPollFuture.run I1 I2 fpoll s cxs).1.fut
        = (futRun fpoll s.fut cxs).1 ∧
      (TraceTaskAndPollFuture.run I1 I2 fpoll s cxs).2.2
        = combLogs s.polled_once
            ((futRun fpoll s.fut cxs).2.map Poll.isReady) ∧
      (TraceTaskAndPollFuture.run I1 I2 fpoll s cxs).1.polled_once
        = (s.polled_once || !cxs.isEmpty)
  | [], s => by simp [TraceTaskAndPollFuture.run, futRun, combLogs]
  | cx :: rest, s => by
      have ih := fun s' => combRun_spec I1 I2 fpoll rest s'
      cases hb : s.polled_once <;> rcases hf : fpoll s.fut cx with ⟨r, f'⟩ <;>
        cases r <;>
        simp [TraceTaskAndPollFuture.run, TraceTaskAndPollFuture.poll, futRun,
          combLogs, combStepLog, Poll.isReady, hb, hf, ih]

lemma taskLogs_script :
    ∀ m : Nat, taskLogs true (List.replicate m false ++ [true])
      = List.replicate m [Ev.futPoll] ++ [[Ev.futPoll, Ev.taskExit]]
  | 0 => by simp [taskLogs, taskStepLog]
  | m + 1 => by
      simp [List.replicate_succ, taskLogs, taskStepLog, taskLogs_script m]

lemma combLogs_script :
    ∀ m : Nat, combLogs true (List.replicate m false ++ [true])
      = List.replicate m [Ev.stepEnter, Ev.futPoll, Ev.stepExit]
        ++ [[Ev.stepEnter, Ev.futPoll, Ev.stepExit, Ev.taskExit]]
  | 0 => by simp [combLogs, combStepLog]
  | m + 1 => by
      simp [List.replicate_succ, combLogs, combStepLog, combLogs_script m]

lemma futRun_length {σF γ α : Type} (fpoll : σF → γ → Poll α × σF) :
    ∀ (cxs : List γ) (s : σF), (futRun fpoll s cxs).2.length = cxs.length
  | [], _ => rfl
  | cx :: rest, s => by
      rcases hf : fpoll s cx with ⟨r, f'⟩
      simp [futRun, hf, futRun_length fpoll rest]

/-! ## Concrete futures and instruments for scenarios and witnesses -/

/-- A counting instrument: its state is the pair (number of `on_enter`
calls, number of `on_exit` calls). -/
def countInstr : Instrument (Nat × Nat) :=
  { on_enter := fun p => (p.1 + 1, p.2), on_exit := fun p => (p.1, p.2 + 1) }

/-- An instrument with a different behavior: it logs `0`/`1` tags onto a
list. -/
def listInstr : Instrument (List Nat) :=
  { on_enter := fun l => 0 :: l, on_exit := fun l => 1 :: l }

/-- A scripted future over context `Unit`: pending for `n` polls, then
ready with `()`. -/
def countdown : Nat → Unit → Poll Unit × Nat
  | 0, _ => (Poll.ready (), 0)
  | Nat.succ m, _ => (Poll.pending, m)

/-- A scripted future over context `Bool` with a `Nat` value: pending for
`n` polls, then ready with `42`. -/
def countdownN : Nat → Bool → Poll Nat × Nat
  | 0, _ => (Poll.ready 42, 0)
  | Nat.succ m, _ => (Poll.pending, m)

/-- A future that is ready on every poll. -/
def alwaysReady : Unit → Unit → Poll Nat × Unit :=
  fun _ _ => (Poll.ready 7, ())

/-! ## Claims -/

/-- C8: for every pin, the `on_enter` implementations of `Gpio`, `GpioRef`,
`LegacyGpio` and `LegacyGpioRef` call `set_high` and the `on_exit`
implementations call `set_low`; in every case the new adapter state is the
pin state left by the operation and the `Result` error component is
discarded: the equations hold whatever `(P.set_high p).1` / `(P.set_low p).1`
are, and the instrument operations are total functions into the adapter
type, with no error output and no panic. -/
theorem gpio_instruments_infallible :
    ∀ (π ε : Type) (P : OutputPin π ε) (p : π),
      (Gpio.instrument P).on_enter { pin := p } = { pin := (P.set_high p).2 } ∧
      (Gpio.instrument P).on_exit { pin := p } = { pin := (P.set_low p).2 } ∧
      (GpioRef.instrument P).on_enter { pin := p } = { pin := (P.set_high p).2 } ∧
      (GpioRef.instrument P).on_exit { pin := p } = { pin := (P.set_low p).2 } ∧
      (LegacyGpio.instrument P).on_enter { pin := p } = { pin := (P.set_high p).2 } ∧
      (LegacyGpio.instrument P).on_exit { pin := p } = { pin := (P.set_low p).2 } ∧
      (LegacyGpioRef.instrument P).on_enter { pin := p } = { pin := (P.set_high p).2 } ∧
      (LegacyGpioRef.instrument P).on_exit { pin := p } = { pin := (P.set_low p).2 } :=
  fun _ _ _ _ => ⟨rfl, rfl, rfl, rfl, rfl, rfl, rfl, rfl⟩

/-- C9: the owning adapters round-trip the pin: `Gpio::new(p).free()` and
`LegacyGpio::new(p).free()` both return exactly `p`. -/
theorem gpio_free_roundtrip :
    ∀ (π : Type) (p : π),
      (Gpio.new p).free = p ∧ (LegacyGpio.new p).free = p :=
  fun _ _ => ⟨rfl, rfl⟩

/-- C3: every poll of a `TracePollFuture` unconditionally calls `on_enter`,
polls the wrapped future, calls `on_exit`, and returns the wrapped result
unchanged; hence over a run of `cxs.length` resumption steps the per-step
event logs are exactly `cxs.length` copies of the enter/poll/exit triple,
one pair per step. -/
theorem TracePollFuture.step_signal_protocol :
    ∀ (σF ι γ α : Type) (I : Instrument ι) (fpoll : σF → γ → Poll α × σF)
      (f0 : σF) (i0 : ι) (cxs : List γ),
      (TracePollFuture.run I fpoll (trace_poll f0 i0) cxs).2.2
        = List.replicate cxs.length [Ev.stepEnter, Ev.futPoll, Ev.stepExit] ∧
      ∀ (s : TracePollFuture σF ι) (cx : γ),
        (TracePollFuture.poll I fpoll s cx).2.2
          = [Ev.stepEnter, Ev.futPoll, Ev.stepExit] ∧
        (TracePollFuture.poll I fpoll s cx).1 = (fpoll s.fut cx).1 := by
  intro σF ι γ α I fpoll f0 i0 cxs
  refine ⟨(stepRun_spec I fpoll cxs (trace_poll f0 i0)).2.2, ?_⟩
  intro s cx
  rw [stepPoll_eq]
  exact ⟨rfl, rfl⟩

/-- C5: the `polled_once` flag of `TraceTaskFuture` and
`TraceTaskAndPollFuture` is initialized `false` by the wrapping call, is
`true` in the state produced by every poll invocation (so it becomes true
on the first poll and is never reset by any later poll), and every
reachable state after at least one poll of a run has `polled_once = true`. -/
theorem polled_once_invariant :
    (∀ (σF ι : Type) (f0 : σF) (i0 : ι),
      (trace_task f0 i0).polled_once = false) ∧
    (∀ (σF ι1 ι2 : Type) (f0 : σF) (i1 : ι1) (i2 : ι2),
      (trace_task_and_poll f0 i1 i2).polled_once = false) ∧
    (∀ (σF ι γ α : Type) (I : Instrument ι) (fpoll : σF → γ → Poll α × σF)
      (s : TraceTaskFuture σF ι) (cx : γ),
      (TraceTaskFuture.poll I fpoll s cx).2.1.polled_once = true) ∧
    (∀ (σF ι1 ι2 γ α : Type) (I1 : Instrument ι1) (I2 : Instrument ι2)
      (fpoll : σF → γ → Poll α × σF) (s : TraceTaskAndPollFuture σF ι1 ι2)
      (cx : γ),
      (TraceTaskAndPollFuture.poll I1 I2 fpoll s cx).2.1.polled_once = true) ∧
    (∀ (σF ι γ α : Type) (I : Instrument ι) (fpoll : σF → γ → Poll α × σF)
      (s : TraceTaskFuture σF ι) (cx : γ) (cxs : List γ),
      (TraceTaskFuture.run I fpoll s (cx :: cxs)).1.polled_once = true) ∧
    (∀ (σF ι1 ι2 γ α : Type) (I1 : Instrument ι1) (I2 : Instrument ι2)
      (fpoll : σF → γ → Poll α × σF) (s : TraceTaskAndPollFuture σF ι1 ι2)
      (cx : γ) (cxs : List γ),
      (TraceTaskAndPollFuture.run I1 I2 fpoll s (cx :: cxs)).1.polled_once
        = true) := by
  refine ⟨fun _ _ _ _ => rfl, fun _ _ _ _ _ _ => rfl, ?_, ?_, ?_, ?_⟩
  · intro σF ι γ α I fpoll s cx
    rw [taskPoll_eq]
  · intro σF ι1 ι2 γ α I1 I2 fpoll s cx
    rw [combPoll_eq]
  · intro σF ι γ α I fpoll s cx cxs
    have h := (taskRun_spec I fpoll (cx :: cxs) s).2.2.2
    simpa using h
  · intro σF ι1 ι2 γ α I1 I2 fpoll s cx cxs
    have h := (combRun_spec I1 I2 fpoll (cx :: cxs) s).2.2.2
    simpa using h

/-- C1: every poll of a `TraceTaskAndPollFuture` performs exactly the fixed
order (1) task `on_enter` when the `polled_once` flag is false, (2) step
`on_enter`, (3) one poll of the wrapped future, (4) step `on_exit`,
(5) task `on_exit` exactly when the wrapped poll was ready — stated as an
exact equation for the invocation's ordered event list — and consequently,
for a scripted computation pending on steps 1-2 and ready on step 3 traced
with counting instruments, the (enter, exit) counters after steps 1, 2, 3
are task (1,0)/(1,0)/(1,1) and step (1,1)/(2,2)/(3,3), i.e. TE=1, SE=k,
SX=k, TX=0 after step k ∈ {1,2} and TE=1, SE=3, SX=3, TX=1 after step 3. -/
theorem TraceTaskAndPollFuture.combined_protocol :
    (∀ (σF ι1 ι2 γ α : Type) (I1 : Instrument ι1) (I2 : Instrument ι2)
      (fpoll : σF → γ → Poll α × σF) (s : TraceTaskAndPollFuture σF ι1 ι2)
      (cx : γ),
      (TraceTaskAndPollFuture.poll I1 I2 fpoll s cx).2.2
        = (if s.polled_once then [] else [Ev.taskEnter])
          ++ [Ev.stepEnter, Ev.futPoll, Ev.stepExit]
          ++ (if (fpoll s.fut cx).1.isReady then [Ev.taskExit] else [])) ∧
    ((TraceTaskAndPollFuture.run countInstr countInstr countdown
        (trace_task_and_poll 2 ((0, 0) : Nat × Nat) ((0, 0) : Nat × Nat))
        [()]).1.task_instrument = (1, 0) ∧
      (TraceTaskAndPollFuture.run countInstr countInstr countdown
        (trace_task_and_poll 2 ((0, 0) : Nat × Nat) ((0, 0) : Nat × Nat))
        [()]).1.poll_instrument = (1, 1)) ∧
    ((TraceTaskAndPollFuture.run countInstr countInstr countdown
        (trace_task_and_poll 2 ((0, 0) : Nat × Nat) ((0, 0) : Nat × Nat))
        [(), ()]).1.task_instrument = (1, 0) ∧
      (TraceTaskAndPollFuture.run countInstr countInstr countdown
        (trace_task_and_poll 2 ((0, 0) : Nat × Nat) ((0, 0) : Nat × Nat))
        [(), ()]).1.poll_instrument = (2, 2)) ∧
    ((TraceTaskAndPollFuture.run countInstr countInstr countdown
        (trace_task_and_poll 2 ((0, 0) : Nat × Nat) ((0, 0) : Nat × Nat))
        [(), (), ()]).1.task_instrument = (1, 1) ∧
      (TraceTaskAndPollFuture.run countInstr countInstr countdown
        (trace_task_and_poll 2 ((0, 0) : Nat × Nat) ((0, 0) : Nat × Nat))
        [(), (), ()]).1.poll_instrument = (3, 3)) := by
  refine ⟨?_, by decide, by decide, by decide⟩
  intro σF ι1 ι2 γ α I1 I2 fpoll s cx
  rw [combPoll_eq]
  rfl

/-- C4: transparency — each of the three tracers returns on every poll
exactly the `Poll` result the wrapped future produced, ends with that
poll's future state, and polls the wrapped future exactly once per tracer
poll (the invocation's event log holds exactly one wrapped-poll event); at
the run level the result sequence and final future state of a traced run
coincide with those of the bare, unwrapped run. -/
theorem tracer_transparency :
    (∀ (σF ι γ α : Type) (I : Instrument ι) (fpoll : σF → γ → Poll α × σF)
      (s : TraceTaskFuture σF ι) (cx : γ),
      (TraceTaskFuture.poll I fpoll s cx).1 = (fpoll s.fut cx).1 ∧
      (TraceTaskFuture.poll I fpoll s cx).2.1.fut = (fpoll s.fut cx).2 ∧
      ((TraceTaskFuture.poll I fpoll s cx).2.2).count Ev.futPoll = 1) ∧
    (∀ (σF ι γ α : Type) (I : Instrument ι) (fpoll : σF → γ → Poll α × σF)
      (s : TracePollFuture σF ι) (cx : γ),
      (TracePollFuture.poll I fpoll s cx).1 = (fpoll s.fut cx).1 ∧
      (TracePollFuture.poll I fpoll s cx).2.1.fut = (fpoll s.fut cx).2 ∧
      ((TracePollFuture.poll I fpoll s cx).2.2).count Ev.futPoll = 1) ∧
    (∀ (σF ι1 ι2 γ α : Type) (I1 : Instrument ι1) (I2 : Instrument ι2)
      (fpoll : σF → γ → Poll α × σF) (s : TraceTaskAndPollFuture σF ι1 ι2)
      (cx : γ),
      (TraceTaskAndPollFuture.poll I1 I2 fpoll s cx).1 = (fpoll s.fut cx).1 ∧
      (TraceTaskAndPollFuture.poll I1 I2 fpoll s cx).2.1.fut
        = (fpoll s.fut cx).2 ∧
      ((TraceTaskAndPollFuture.poll I1 I2 fpoll s cx).2.2).count Ev.futPoll
        = 1) ∧
    (∀ (σF ι γ α : Type) (I : Instrument ι) (fpoll : σF → γ → Poll α × σF)
      (f0 : σF) (i0 : ι) (cxs : List γ),
      (TraceTaskFuture.run I fpoll (trace_task f0 i0) cxs).2.1
        = (futRun fpoll f0 cxs).2 ∧
      (TraceTaskFuture.run I fpoll (trace_task f0 i0) cxs).1.fut
        = (futRun fpoll f0 cxs).1) ∧
    (∀ (σF ι γ α : Type) (I : Instrument ι) (fpoll : σF → γ → Poll α × σF)
      (f0 : σF) (i0 : ι) (cxs : List γ),
      (TracePollFuture.run I fpoll (trace_poll f0 i0) cxs).2.1
        = (futRun fpoll f0 cxs).2 ∧
      (TracePollFuture.run I fpoll (trace_poll f0 i0) cxs).1.fut
        = (futRun fpoll f0 cxs).1) ∧
    (∀ (σF ι1 ι2 γ α : Type) (I1 : Instrument ι1) (I2 : Instrument ι2)
      (fpoll : σF → γ → Poll α × σF) (f0 : σF) (i1 : ι1) (i2 : ι2)
      (cxs : List γ),
      (TraceTaskAndPollFuture.run I1 I2 fpoll
          (trace_task_and_poll f0 i1 i2) cxs).2.1
        = (futRun fpoll f0 cxs).2 ∧
      (TraceTaskAndPollFuture.run I1 I2 fpoll
          (trace_task_and_poll f0 i1 i2) cxs).1.fut
        = (futRun fpoll f0 cxs).1) := by
  refine ⟨?_, ?_, ?_, ?_, ?_, ?_⟩
  · intro σF ι γ α I fpoll s cx
    rw [taskPoll_eq]
    refine ⟨rfl, rfl, ?_⟩
    cases hb : s.polled_once <;> cases hr : (fpoll s.fut cx).1.isReady <;>
      rfl
  · intro σF ι γ α I fpoll s cx
    rw [stepPoll_eq]
    exact ⟨rfl, rfl, rfl⟩
  · intro σF ι1 ι2 γ α I1 I2 fpoll s cx
    rw [combPoll_eq]
    refine ⟨rfl, rfl, ?_⟩
    cases hb : s.polled_once <;> cases hr : (fpoll s.fut cx).1.isReady <;>
      rfl
  · intro σF ι γ α I fpoll f0 i0 cxs
    have h := taskRun_spec I fpoll cxs (trace_task f0 i0)
    exact ⟨h.1, h.2.1⟩
  · intro σF ι γ α I fpoll f0 i0 cxs
    have h := stepRun_spec I fpoll cxs (trace_poll f0 i0)
    exact ⟨h.1, h.2.1⟩
  · intro σF ι1 ι2 γ α I1 I2 fpoll f0 i1 i2 cxs
    have h := combRun_spec I1 I2 fpoll cxs
      (trace_task_and_poll f0 i1 i2)
    exact ⟨h.1, h.2.1⟩

/-- C2: for a `TraceTaskFuture` whose wrapped future completes after
exactly `N` resumption steps (`N ≥ 1`, results pending on the first
`N - 1` steps and ready on step `N`), the per-step event logs show
`on_enter` firing exactly once, on step 1 and before that step's wrapped
poll, and `on_exit` firing exactly once, on step `N` strictly after the
wrapped poll reported ready; on pending steps `on_exit` is not called. -/
theorem TraceTaskFuture.task_signal_protocol {σF ι γ α : Type}
    (I : Instrument ι) (fpoll : σF → γ → Poll α × σF) (f0 : σF) (i0 : ι)
    (cxs : List γ) (N : Nat) (v : α) (hN : 1 ≤ N)
    (hres : (TraceTaskFuture.run I fpoll (trace_task f0 i0) cxs).2.1
      = List.replicate (N - 1) Poll.pending ++ [Poll.ready v]) :
    (N = 1 ∧ (TraceTaskFuture.run I fpoll (trace_task f0 i0) cxs).2.2
        = [[Ev.taskEnter, Ev.futPoll, Ev.taskExit]]) ∨
    (2 ≤ N ∧ (TraceTaskFuture.run I fpoll (trace_task f0 i0) cxs).2.2
        = [Ev.taskEnter, Ev.futPoll]
          :: (List.replicate (N - 2) [Ev.futPoll]
              ++ [[Ev.futPoll, Ev.taskExit]])) := by
  obtain ⟨h1, -, h3, -⟩ := taskRun_spec I fpoll cxs (trace_task f0 i0)
  rw [h1] at hres
  rw [h3, hres]
  simp only [trace_task, List.map_append, List.map_replicate, List.map_cons,
    List.map_nil, Poll.isReady]
  obtain _ | N := N
  · exact absurd hN (by omega)
  obtain _ | m := N
  · left
    refine ⟨rfl, ?_⟩
    simp [taskLogs, taskStepLog]
  · right
    refine ⟨by omega, ?_⟩
    have e1 : m + 1 + 1 - 1 = m + 1 := by omega
    have e2 : m + 1 + 1 - 2 = m := by omega
    rw [e1, e2, List.replicate_succ]
    simp [taskLogs, taskStepLog, taskLogs_script m]

/-- C2 witness: the scripted future pending on steps 1-2 and ready on step
3, wrapped by the task tracer with a counting instrument, satisfies the
hypotheses of the protocol theorem at `N = 3` and its conclusion. -/
theorem TraceTaskFuture.task_signal_protocol_witness :
    (1 ≤ 3 ∧
      (TraceTaskFuture.run countInstr countdown
          (trace_task 2 ((0, 0) : Nat × Nat)) [(), (), ()]).2.1
        = List.replicate (3 - 1) Poll.pending ++ [Poll.ready ()]) ∧
    ((3 = 1 ∧ (TraceTaskFuture.run countInstr countdown
          (trace_task 2 ((0, 0) : Nat × Nat)) [(), (), ()]).2.2
        = [[Ev.taskEnter, Ev.futPoll, Ev.taskExit]]) ∨
      (2 ≤ 3 ∧ (TraceTaskFuture.run countInstr countdown
          (trace_task 2 ((0, 0) : Nat × Nat)) [(), (), ()]).2.2
        = [Ev.taskEnter, Ev.futPoll]
          :: (List.replicate (3 - 2) [Ev.futPoll]
              ++ [[Ev.futPoll, Ev.taskExit]]))) :=
  ⟨⟨by decide, by decide⟩,
    TraceTaskFuture.task_signal_protocol countInstr countdown 2 ((0, 0))
      [(), (), ()] 3 () (by decide) (by decide)⟩

/-- C6: early abandonment — none of the three tracers has destructor-time
signaling (their drop-event traces are empty for every state), and a
future wrapped by the task tracer that is polled exactly once, returning
pending, shows an event log with exactly one `on_enter` call and zero
`on_exit` calls; dropping the resulting state adds no events, so the
terminal exit is permanently skipped although `entered` is already true. -/
theorem early_abandonment {σF ι γ α : Type} (I : Instrument ι)
    (fpoll : σF → γ → Poll α × σF) (f0 : σF) (i0 : ι) (cx : γ) (f1 : σF)
    (hp : fpoll f0 cx = (Poll.pending, f1)) :
    (TraceTaskFuture.poll I fpoll (trace_task f0 i0) cx).2.2
      = [Ev.taskEnter, Ev.futPoll] ∧
    ((TraceTaskFuture.poll I fpoll (trace_task f0 i0) cx).2.2).count
      Ev.taskEnter = 1 ∧
    ((TraceTaskFuture.poll I fpoll (trace_task f0 i0) cx).2.2).count
      Ev.taskExit = 0 ∧
    (TraceTaskFuture.poll I fpoll (trace_task f0 i0) cx).2.1.polled_once
      = true ∧
    TraceTaskFuture.dropEvents
      ((TraceTaskFuture.poll I fpoll (trace_task f0 i0) cx).2.1) = [] ∧
    (∀ (σ2 τ2 : Type) (s : TraceTaskFuture σ2 τ2),
      TraceTaskFuture.dropEvents s = []) ∧
    (∀ (σ2 τ2 : Type) (s : TracePollFuture σ2 τ2),
      TracePollFuture.dropEvents s = []) ∧
    (∀ (σ2 τ2 τ3 : Type) (s : TraceTaskAndPollFuture σ2 τ2 τ3),
      TraceTaskAndPollFuture.dropEvents s = []) := by
  have hlog : (TraceTaskFuture.poll I fpoll (trace_task f0 i0) cx).2.2
      = [Ev.taskEnter, Ev.futPoll] := by
    rw [taskPoll_eq]
    simp [trace_task, taskStepLog, hp, Poll.isReady]
  refine ⟨hlog, ?_, ?_, ?_, rfl, fun _ _ _ => rfl, fun _ _ _ => rfl,
    fun _ _ _ _ => rfl⟩
  · rw [hlog]; decide
  · rw [hlog]; decide
  · rw [taskPoll_eq]

/-- C6 witness: the scripted future pending on its first poll exercises the
abandonment theorem at a concrete input. -/
theorem early_abandonment_witness :
    countdown 1 () = (Poll.pending, 0) ∧
    (TraceTaskFuture.poll countInstr countdown
        (trace_task 1 ((0, 0) : Nat × Nat)) ()).2.2
      = [Ev.taskEnter, Ev.futPoll] :=
  ⟨by decide,
    (early_abandonment countInstr countdown 1 ((0, 0)) () 0 (by decide)).1⟩

/-- C7: misuse after completion — no tracer guards against being polled
after the wrapped future already reported ready: after a poll that
returned `Ready`, a further poll of the task tracer re-runs the protocol
(re-emitting `on_exit` whenever the wrapped poll is ready again), a
further poll of the step tracer always re-emits its full
enter/poll/exit triple, and a further poll of the combined tracer
re-emits the step pair and the task exit when ready again; no branch
detects prior completion. -/
theorem no_completion_guard :
    (∀ (σF ι γ α : Type) (I : Instrument ι) (fpoll : σF → γ → Poll α × σF)
      (s : TraceTaskFuture σF ι) (cx cx' : γ) (v : α),
      (TraceTaskFuture.poll I fpoll s cx).1 = Poll.ready v →
      (TraceTaskFuture.poll I fpoll
          (TraceTaskFuture.poll I fpoll s cx).2.1 cx').2.2
        = [Ev.futPoll]
          ++ (if (fpoll (TraceTaskFuture.poll I fpoll s cx).2.1.fut cx').1.isReady
              then [Ev.taskExit] else [])) ∧
    (∀ (σF ι γ α : Type) (I : Instrument ι) (fpoll : σF → γ → Poll α × σF)
      (s : TracePollFuture σF ι) (cx cx' : γ) (v : α),
      (TracePollFuture.poll I fpoll s cx).1 = Poll.ready v →
      (TracePollFuture.poll I fpoll
          (TracePollFuture.poll I fpoll s cx).2.1 cx').2.2
        = [Ev.stepEnter, Ev.futPoll, Ev.stepExit]) ∧
    (∀ (σF ι1 ι2 γ α : Type) (I1 : Instrument ι1) (I2 : Instrument ι2)
      (fpoll : σF → γ → Poll α × σF) (s : TraceTaskAndPollFuture σF ι1 ι2)
      (cx cx' : γ) (v : α),
      (TraceTaskAndPollFuture.poll I1 I2 fpoll s cx).1 = Poll.ready v →
      (TraceTaskAndPollFuture.poll I1 I2 fpoll
          (TraceTaskAndPollFuture.poll I1 I2 fpoll s cx).2.1 cx').2.2
        = [Ev.stepEnter, Ev.futPoll, Ev.stepExit]
          ++ (if (fpoll (TraceTaskAndPollFuture.poll I1 I2 fpoll s cx).2.1.fut
                cx').1.isReady
              then [Ev.taskExit] else [])) := by
  refine ⟨?_, ?_, ?_⟩
  · intro σF ι γ α I fpoll s cx cx' v _hready
    simp only [taskPoll_eq]
    cases hr : (fpoll (fpoll s.fut cx).2 cx').1.isReady <;>
      simp [taskStepLog, hr]
  · intro σF ι γ α I fpoll s cx cx' v _hready
    simp only [stepPoll_eq]
    rfl
  · intro σF ι1 ι2 γ α I1 I2 fpoll s cx cx' v _hready
    simp only [combPoll_eq]
    cases hr : (fpoll (fpoll s.fut cx).2 cx').1.isReady <;>
      simp [combStepLog, hr]

/-- C7 witness: the always-ready future polled twice through the task
tracer exercises the misuse theorem at a concrete input. -/
theorem no_completion_guard_witness :
    (TraceTaskFuture.poll countInstr alwaysReady
        (trace_task () ((0, 0) : Nat × Nat)) ()).1 = Poll.ready 7 ∧
    (TraceTaskFuture.poll countInstr alwaysReady
        (TraceTaskFuture.poll countInstr alwaysReady
          (trace_task () ((0, 0) : Nat × Nat)) ()).2.1 ()).2.2
      = [Ev.futPoll]
        ++ (if (alwaysReady (TraceTaskFuture.poll countInstr alwaysReady
              (trace_task () ((0, 0) : Nat × Nat)) ()).2.1.fut ()).1.isReady
            then [Ev.taskExit] else []) :=
  ⟨by decide,
    (no_completion_guard).1 Unit (Nat × Nat) Unit Nat countInstr alwaysReady
      (trace_task () ((0, 0))) () () 7 (by decide)⟩

/-- C10: determinism of the signaling trace — for each tracer, the
per-step event logs of a run are a function solely of the sequence of
readiness outcomes of the wrapped polls: two runs (over arbitrary and
possibly different future types, value types, context types, instrument
types and instrument behaviors) whose wrapped results have the same
pending/ready shape produce identical event-log sequences. -/
theorem signaling_determinism :
    (∀ (σ1 ι1 γ1 α1 σ2 ι2 γ2 α2 : Type) (I1 : Instrument ι1)
      (I2 : Instrument ι2) (fp1 : σ1 → γ1 → Poll α1 × σ1)
      (fp2 : σ2 → γ2 → Poll α2 × σ2) (f1 : σ1) (i1 : ι1) (f2 : σ2) (i2 : ι2)
      (cxs1 : List γ1) (cxs2 : List γ2),
      (TraceTaskFuture.run I1 fp1 (trace_task f1 i1) cxs1).2.1.map Poll.isReady
        = (TraceTaskFuture.run I2 fp2 (trace_task f2 i2) cxs2).2.1.map
            Poll.isReady →
      (TraceTaskFuture.run I1 fp1 (trace_task f1 i1) cxs1).2.2
        = (TraceTaskFuture.run I2 fp2 (trace_task f2 i2) cxs2).2.2) ∧
    (∀ (σ1 ι1 γ1 α1 σ2 ι2 γ2 α2 : Type) (I1 : Instrument ι1)
      (I2 : Instrument ι2) (fp1 : σ1 → γ1 → Poll α1 × σ1)
      (fp2 : σ2 → γ2 → Poll α2 × σ2) (f1 : σ1) (i1 : ι1) (f2 : σ2) (i2 : ι2)
      (cxs1 : List γ1) (cxs2 : List γ2),
      (TracePollFuture.run I1 fp1 (trace_poll f1 i1) cxs1).2.1.map Poll.isReady
        = (TracePollFuture.run I2 fp2 (trace_poll f2 i2) cxs2).2.1.map
            Poll.isReady →
      (TracePollFuture.run I1 fp1 (trace_poll f1 i1) cxs1).2.2
        = (TracePollFuture.run I2 fp2 (trace_poll f2 i2) cxs2).2.2) ∧
    (∀ (σ1 ι1 ι1' γ1 α1 σ2 ι2 ι2' γ2 α2 : Type) (I1 : Instrument ι1)
      (I1' : Instrument ι1') (I2 : Instrument ι2) (I2' : Instrument ι2')
      (fp1 : σ1 → γ1 → Poll α1 × σ1) (fp2 : σ2 → γ2 → Poll α2 × σ2)
      (f1 : σ1) (i1 : ι1) (i1' : ι1') (f2 : σ2) (i2 : ι2) (i2' : ι2')
      (cxs1 : List γ1) (cxs2 : List γ2),
      (TraceTaskAndPollFuture.run I1 I1' fp1 (trace_task_and_poll f1 i1 i1')
          cxs1).2.1.map Poll.isReady
        = (TraceTaskAndPollFuture.run I2 I2' fp2
            (trace_task_and_poll f2 i2 i2') cxs2).2.1.map Poll.isReady →
      (TraceTaskAndPollFuture.run I1 I1' fp1 (trace_task_and_poll f1 i1 i1')
          cxs1).2.2
        = (TraceTaskAndPollFuture.run I2 I2' fp2
            (trace_task_and_poll f2 i2 i2') cxs2).2.2) := by
  refine ⟨?_, ?_, ?_⟩
  · intro σ1 ι1 γ1 α1 σ2 ι2 γ2 α2 I1 I2 fp1 fp2 f1 i1 f2 i2 cxs1 cxs2 h
    obtain ⟨h1a, -, h3a, -⟩ := taskRun_spec I1 fp1 cxs1
      (trace_task f1 i1)
    obtain ⟨h1b, -, h3b, -⟩ := taskRun_spec I2 fp2 cxs2
      (trace_task f2 i2)
    rw [h1a, h1b] at h
    rw [h3a, h3b]
    rw [show (trace_task f1 i1).polled_once = false from rfl,
      show (trace_task f2 i2).polled_once = false from rfl, h]
  · intro σ1 ι1 γ1 α1 σ2 ι2 γ2 α2 I1 I2 fp1 fp2 f1 i1 f2 i2 cxs1 cxs2 h
    obtain ⟨h1a, -, h3a⟩ := stepRun_spec I1 fp1 cxs1
      (trace_poll f1 i1)
    obtain ⟨h1b, -, h3b⟩ := stepRun_spec I2 fp2 cxs2
      (trace_poll f2 i2)
    rw [h1a, h1b] at h
    have hlen : cxs1.length = cxs2.length := by
      have := congrArg List.length h
      simpa [futRun_length] using this
    rw [h3a, h3b, hlen]
  · intro σ1 ι1 ι1' γ1 α1 σ2 ι2 ι2' γ2 α2 I1 I1' I2 I2' fp1 fp2 f1 i1 i1' f2
      i2 i2' cxs1 cxs2 h
    obtain ⟨h1a, -, h3a, -⟩ := combRun_spec I1 I1' fp1 cxs1
      (trace_task_and_poll f1 i1 i1')
    obtain ⟨h1b, -, h3b, -⟩ := combRun_spec I2 I2' fp2 cxs2
      (trace_task_and_poll f2 i2 i2')
    rw [h1a, h1b] at h
    rw [h3a, h3b]
    rw [show (trace_task_and_poll f1 i1 i1').polled_once = false from rfl,
      show (trace_task_and_poll f2 i2 i2').polled_once = false from rfl, h]

/-- C10 witness: two runs with different future, value, context and
instrument types but the same pending-then-ready shape produce the same
event logs. -/
theorem signaling_determinism_witness :
    ((TraceTaskFuture.run countInstr countdown
        (trace_task 1 ((0, 0) : Nat × Nat)) [(), ()]).2.1.map Poll.isReady
      = (TraceTaskFuture.run listInstr countdownN
          (trace_task 1 ([] : List Nat)) [true, false]).2.1.map
          Poll.isReady) ∧
    ((TraceTaskFuture.run countInstr countdown
        (trace_task 1 ((0, 0) : Nat × Nat)) [(), ()]).2.2
      = (TraceTaskFuture.run listInstr countdownN
          (trace_task 1 ([] : List Nat)) [true, false]).2.2) :=
  ⟨by decide,
    (signaling_determinism).1 Nat (Nat × Nat) Unit Unit Nat (List Nat) Bool
      Nat countInstr listInstr countdown countdownN 1 ((0, 0)) 1 []
      [(), ()] [true, false] (by decide)⟩

end EmbeddedTrace
